import Mathlib

/-!
Shallow embedding of the merge pipeline in `scripts/merge_stock_data.py`
(the five "fase" functions and the `main` driver), together with theorems
checking the specification's claims about it.

JSON values are modelled by the inductive type `JVal`; Python's `None` is
identified with JSON `null`, which is how `json.load` represents it.
Files on disk are modelled by an association list from filename to parsed
content (`none` standing for a file whose content is not valid JSON).
-/

set_option maxHeartbeats 1000000

namespace MergeStockData

/-- A JSON value as produced by `json.load`.  Numbers are modelled as
rationals (JSON has a single number type; all numbers appearing in the
claims are integers). -/
inductive JVal where
  | null
  | bool (b : Bool)
  | num (q : Rat)
  | str (s : String)
  | arr (elems : List JVal)
  | obj (fields : List (String × JVal))

/-- Python truthiness (`bool(x)`) of a JSON value: `None`, `False`, `0`,
`""`, `[]` and `{}` are falsy, everything else is truthy. -/
def truthy : JVal → Bool
  | JVal.null => false
  | JVal.bool b => b
  | JVal.num q => q != 0
  | JVal.str s => !s.data.isEmpty
  | JVal.arr l => !l.isEmpty
  | JVal.obj l => !l.isEmpty

/-- Python `a or b`: returns `a` when `a` is truthy, otherwise `b`. -/
def pyOr (a b : JVal) : JVal := if truthy a then a else b

/-- First-wins lookup in an association list. -/
def lookFirst : List (String × JVal) → String → JVal
  | [], _ => JVal.null
  | p :: t, k => if p.1 = k then p.2 else lookFirst t k

/-- Python `dict.get(k)` on an object decoded by `json.load`, returning
`null` for an absent key.  `json.load` keeps the LAST value of a
duplicated key, hence the reversal. -/
def objGet (l : List (String × JVal)) (k : String) : JVal :=
  lookFirst l.reverse k

/-- Boolean test that `pat` is a prefix of `l` (character lists). -/
def chPre : List Char → List Char → Bool
  | [], _ => true
  | _ :: _, [] => false
  | a :: as, b :: bs => a == b && chPre as bs

/-- Boolean test that `pat` occurs as a contiguous substring of `l`,
modelling Python's `pat in s`. -/
def hasSub : List Char → List Char → Bool
  | [], pat => pat.isEmpty
  | l@(_ :: t), pat => chPre pat l || hasSub t pat

/-- Python `s.startswith(pre)` / glob prefix matching. -/
def strStartsWith (n pre : String) : Bool := chPre pre.data n.data

/-- Python `s.endswith(suf)` / glob suffix matching. -/
def strEndsWith (n suf : String) : Bool := chPre suf.data.reverse n.data.reverse

/-- Number of occurrences of character `c` in `l` (Python `s.count(c)`
for a single-character needle). -/
def countChar (c : Char) : List Char → Nat
  | [] => 0
  | a :: t => (if a == c then 1 else 0) + countChar c t

/-- Python `str(x)` for the values that can reach the clock-time branch of
the reconstruction.  Integers render exactly as Python renders `int`;
non-integral numbers and containers do not occur in any record exercised
by the claims, so their rendering is a nominal placeholder. -/
def pyStr : JVal → String
  | JVal.null => "None"
  | JVal.bool b => if b then "True" else "False"
  | JVal.num q => if q.den = 1 then toString q.num else toString q
  | JVal.str s => s
  | JVal.arr _ => "[...]"
  | JVal.obj _ => "{...}"

/-- Line 183-188: resolve the time value of a record by the alias chain
`time or t or timestamp or Time`. -/
def resolveTime (c : List (String × JVal)) : JVal :=
  pyOr (objGet c "time")
    (pyOr (objGet c "t") (pyOr (objGet c "timestamp") (objGet c "Time")))

/-- Line 197-205: combine the filename-embedded date with a clock-time
string, appending ":00" when the clock time has exactly one colon. -/
def clockCombine (dateStr s : String) : String :=
  let s2 := if countChar ':' s.data = 1 then s ++ ":00" else s
  dateStr ++ "T" ++ s2 ++ "Z"

/-- Line 193-205: a string time value containing a literal `T` is used
verbatim; anything else is rendered with `str` and combined with the
file date. -/
def mkTimestamp (dateStr : String) (tv : JVal) : String :=
  match tv with
  | JVal.str s => if hasSub s.data "T".data then s else clockCombine dateStr s
  | _ => clockCombine dateStr (pyStr tv)

/-- One reconstructed candle (the `fixed_candle` dict of line 217-224). -/
structure Candle where
  timestamp : String
  open_ : JVal
  high : JVal
  low : JVal
  close : JVal
  volume : JVal

/-- Line 180-227: process one record of a fragment file.  Returns `none`
when the record has no truthy time value (the record is dropped). -/
def processRecord (dateStr : String) (c : List (String × JVal)) : Option Candle :=
  if truthy (resolveTime c) then
    some
      { timestamp := mkTimestamp dateStr (resolveTime c)
        open_ := pyOr (objGet c "open") (objGet c "o")
        high := pyOr (objGet c "high") (objGet c "h")
        low := pyOr (objGet c "low") (objGet c "l")
        close := pyOr (objGet c "close") (objGet c "c")
        volume := pyOr (objGet c "volume")
          (pyOr (objGet c "vol")
            (pyOr (objGet c "Volume") (pyOr (objGet c "v") (JVal.num 0)))) }
  else none

/-- Iterate the record list of one file.  A non-object element raises
`AttributeError` inside the per-file `try`, which aborts the rest of the
file while keeping the candles already appended. -/
def processRecords (dateStr : String) : List JVal → List Candle
  | [] => []
  | JVal.obj o :: rest =>
    (match processRecord dateStr o with
     | some c => c :: processRecords dateStr rest
     | none => processRecords dateStr rest)
  | _ :: _ => []

/-- Line 167-174: locate the candle array of a parsed file: an object is
probed with `data.get('candles') or data.get('data') or data.get('klines')`,
a top-level array is taken as-is, anything else yields `None`. -/
def locateCandles : JVal → JVal
  | JVal.obj l => pyOr (objGet l "candles") (pyOr (objGet l "data") (objGet l "klines"))
  | JVal.arr l => JVal.arr l
  | _ => JVal.null

/-- Line 167-229: process one parsed file.  A falsy candle container is
skipped; a truthy non-array container raises while iterating, producing
no candles. -/
def processContent (dateStr : String) (data : JVal) : List Candle :=
  if truthy (locateCandles data) then
    match locateCandles data with
    | JVal.arr recs => processRecords dateStr recs
    | _ => []
  else []

/-- The filesystem directory: filenames mapped to parsed content, `none`
standing for a file that is not valid JSON. -/
abbrev FS := List (String × Option JVal)

/-- Look up a file's parsed content by name. -/
def lookupContent (fs : FS) (n : String) : Option (Option JVal) :=
  (fs.find? (fun p => p.1 == n)).map (·.2)

/-- The common filename prefix `f"{ticker}_{interval}_"` of all glob
patterns used by the pipeline. -/
def sanPre (t i : String) : String := t ++ "_" ++ i ++ "_"

/-- The derived-output marker substrings of lines 50-53 and 101. -/
def sanTokens : List String := ["MERGED", "COMBINED", "days"]

/-- The part of a filename matched by the `*`s of the sanitation glob
`f"{t}_{i}_*TOK*.json"`: everything after the prefix and before the
final `.json`. -/
def middleOf (n pre : String) : List Char :=
  (n.data.drop pre.data.length).take ((n.data.drop pre.data.length).length - 5)

/-- Glob match for the sanitation pattern `f"{t}_{i}_*{tok}*.json"`
(line 50-53): prefix, suffix, and the marker token inside the starred
region. -/
def sanMatch (t i tok n : String) : Bool :=
  strStartsWith n (sanPre t i) && strEndsWith n ".json" &&
    hasSub (middleOf n (sanPre t i)) tok.data

/-- A filename matches at least one of the three sanitation patterns. -/
def sanAny (t i n : String) : Bool := sanTokens.any (fun tok => sanMatch t i tok n)

/-- FASE 1 (line 32-73): delete every file matching one of the three
sanitation patterns.  The per-file deletion order does not affect the
resulting directory. -/
def fase_1_sanitasi (t i : String) (fs : FS) : FS :=
  fs.filter (fun p => !sanAny t i p.1)

/-- Discovery filter of line 96-105: name matches `f"{t}_{i}_*.json"` and
contains none of the exclusion keywords anywhere in the basename. -/
def rawName (t i n : String) : Bool :=
  strStartsWith n (sanPre t i) && strEndsWith n ".json" &&
    !(sanTokens.any (fun kw => hasSub n.data kw.data))

/-- The names of the raw fragment files discovered in a directory. -/
def rawNames (t i : String) (fs : FS) : List String :=
  (fs.map (·.1)).filter (rawName t i)

/-- Try to match `\d{4}-\d{2}-\d{2}` at the head of the character list. -/
def dateAt : List Char → Option (List Char)
  | a :: b :: c :: d :: e :: f :: g :: h :: i :: j :: _ =>
    if a.isDigit && b.isDigit && c.isDigit && d.isDigit && e == '-' &&
        f.isDigit && g.isDigit && h == '-' && i.isDigit && j.isDigit then
      some [a, b, c, d, e, f, g, h, i, j]
    else none
  | _ => none

/-- Leftmost match of the date regex `(\d{4}-\d{2}-\d{2})` (line 117),
as found by `re.search`. -/
def findDate : List Char → Option String
  | [] => none
  | c :: t =>
    match dateAt (c :: t) with
    | some cs => some (String.mk cs)
    | none => findDate t

/-- Lexicographic comparison of character lists by code point, the order
Python uses for `str`. -/
def charsLe : List Char → List Char → Bool
  | [], _ => true
  | _ :: _, [] => false
  | a :: as, b :: bs => if a < b then true else if a == b then charsLe as bs else false

/-- Python `s <= t` on strings. -/
def strLeB (s t : String) : Bool := charsLe s.data t.data

/-- Stable insertion of a (path, date) pair before the first entry with a
strictly later date. -/
def insertByDate (p : String × String) : List (String × String) → List (String × String)
  | [] => [p]
  | q :: qs => if strLeB p.2 q.2 then p :: q :: qs else q :: insertByDate p qs

/-- Stable sort by date string, the semantics of
`file_date_pairs.sort(key=lambda x: x[1])` (line 131). -/
def sortByDate : List (String × String) → List (String × String)
  | [] => []
  | p :: ps => insertByDate p (sortByDate ps)

/-- FASE 2 (line 76-138): enumerate raw fragment files, abort the item
(`sys.exit(1)`) when none exist, extract a date from each filename
(dateless files are warned about and left out), sort ascending by date. -/
def fase_2_discovery (t i : String) (fs : FS) : Except Unit (List (String × String)) :=
  if (rawNames t i fs).isEmpty then Except.error ()
  else
    Except.ok (sortByDate
      ((rawNames t i fs).filterMap (fun n => (findDate n.data).map (fun d => (n, d)))))

/-- Candles contributed by one (path, date) pair: an unreadable or
non-JSON file is skipped by the per-file `try`/`except`. -/
def fileCandles (fs : FS) (pd : String × String) : List Candle :=
  match lookupContent fs pd.1 with
  | some (some data) => processContent pd.2 data
  | _ => []

/-- FASE 3 (line 141-238): concatenate the candles of every discovered
file, in discovery order, with no re-sort by timestamp. -/
def fase_3_rekonstruksi (fs : FS) (pairs : List (String × String)) : List Candle :=
  (pairs.map (fileCandles fs)).flatten

/-- Replace every `Z` by `+00:00`, the preprocessing of line 271-272. -/
def replZ : List Char → List Char
  | [] => []
  | c :: t =>
    if c == 'Z' then '+' :: '0' :: '0' :: ':' :: '0' :: '0' :: replZ t
    else c :: replZ t

/-- Numeric value of a decimal digit character. -/
def digitVal (c : Char) : Nat := c.toNat - 48

/-- Parse exactly two decimal digits. -/
def parse2 : List Char → Option (Nat × List Char)
  | a :: b :: t => if a.isDigit && b.isDigit then some (10 * digitVal a + digitVal b, t) else none
  | _ => none

/-- Parse exactly four decimal digits. -/
def parse4 : List Char → Option (Nat × List Char)
  | a :: b :: c :: d :: t =>
    if a.isDigit && b.isDigit && c.isDigit && d.isDigit then
      some (1000 * digitVal a + 100 * digitVal b + 10 * digitVal c + digitVal d, t)
    else none
  | _ => none

/-- Expect one specific character. -/
def expectCh (c : Char) : List Char → Option (List Char)
  | x :: t => if x == c then some t else none
  | [] => none

/-- Gregorian leap-year rule. -/
def isLeap (y : Int) : Bool := (y % 4 == 0 && y % 100 != 0) || y % 400 == 0

/-- Number of days of month `m` of year `y`. -/
def daysInMonth (y m : Int) : Int :=
  if m = 2 then (if isLeap y then 29 else 28)
  else if m = 4 ∨ m = 6 ∨ m = 9 ∨ m = 11 then 30
  else 31

/-- Days from 1970-01-01 to the given civil date (standard
days-from-civil algorithm). -/
def daysFromCivil (y m d : Int) : Int :=
  let y2 := if m ≤ 2 then y - 1 else y
  let era := Int.fdiv y2 400
  let yoe := y2 - era * 400
  let mp := (m + 9) % 12
  let doy := Int.fdiv (153 * mp + 2) 5 + d - 1
  let doe := yoe * 365 + Int.fdiv yoe 4 - Int.fdiv yoe 100 + doy
  era * 146097 + doe - 719468

/-- Parse the optional fractional-second part `.fff` or `.ffffff`
accepted by `datetime.fromisoformat`; the fraction does not contribute
to whole-second arithmetic. -/
def parseFrac : List Char → Option (List Char)
  | '.' :: t =>
    match t with
    | a :: b :: c :: d :: e :: f :: r =>
      if a.isDigit && b.isDigit && c.isDigit && d.isDigit && e.isDigit && f.isDigit then some r
      else if a.isDigit && b.isDigit && c.isDigit then some (d :: e :: f :: r)
      else none
    | a :: b :: c :: r => if a.isDigit && b.isDigit && c.isDigit then some r else none
    | _ => none
  | l => some l

/-- Parse the optional trailing seconds `:SS` of an offset. -/
def parseOffSec : List Char → Option (Nat × List Char)
  | [] => some (0, [])
  | ':' :: t =>
    match parse2 t with
    | some (os, r) => some (os, r)
    | none => none
  | _ => none

/-- Parse the optional `±HH:MM[:SS]` offset accepted by
`datetime.fromisoformat`; returns the offset in seconds and whether an
offset was present (timezone-awareness). -/
def parseOffset : List Char → Option (Int × Bool)
  | [] => some (0, false)
  | s :: t =>
    if s == '+' || s == '-' then
      match parse2 t with
      | none => none
      | some (oh, t1) =>
        match expectCh ':' t1 with
        | none => none
        | some t2 =>
          match parse2 t2 with
          | none => none
          | some (om, t3) =>
            match parseOffSec t3 with
            | none => none
            | some (os, t4) =>
              if t4.isEmpty && oh ≤ 23 && om ≤ 59 && os ≤ 59 then
                let total : Int := (oh : Int) * 3600 + (om : Int) * 60 + (os : Int)
                some (if s == '-' then -total else total, true)
              else none
    else none

/-- Parse the optional time-of-day part `*HH[:MM[:SS[.frac]]]` followed
by an optional offset; `fromisoformat` accepts any single character as
the date/time separator. -/
def parseTimePart : List Char → Option (Int × Int × Bool)
  | [] => some (0, 0, false)
  | _sep :: t =>
    match parse2 t with
    | none => none
    | some (hh, t1) =>
      match t1 with
      | ':' :: t2 =>
        (match parse2 t2 with
         | none => none
         | some (mi, t3) =>
           match t3 with
           | ':' :: t4 =>
             (match parse2 t4 with
              | none => none
              | some (ss, t5) =>
                match parseFrac t5 with
                | none => none
                | some t6 =>
                  match parseOffset t6 with
                  | none => none
                  | some (off, aware) =>
                    if hh ≤ 23 && mi ≤ 59 && ss ≤ 59 then
                      some ((hh : Int) * 3600 + (mi : Int) * 60 + (ss : Int), off, aware)
                    else none)
           | _ =>
             match parseOffset t3 with
             | none => none
             | some (off, aware) =>
               if hh ≤ 23 && mi ≤ 59 then
                 some ((hh : Int) * 3600 + (mi : Int) * 60, off, aware)
               else none)
      | _ =>
        match parseOffset t1 with
        | none => none
        | some (off, aware) =>
          if hh ≤ 23 then some ((hh : Int) * 3600, off, aware) else none

/-- Model of `datetime.fromisoformat` as used at line 271-272: returns
the timestamp as seconds since the epoch (UTC for aware values, nominal
for naive ones) together with the awareness flag, or `none` when Python
would raise `ValueError`. -/
def parseISOChars (l : List Char) : Option (Int × Bool) :=
  match parse4 l with
  | none => none
  | some (y, l1) =>
    match expectCh '-' l1 with
    | none => none
    | some l2 =>
      match parse2 l2 with
      | none => none
      | some (mo, l3) =>
        match expectCh '-' l3 with
        | none => none
        | some l4 =>
          match parse2 l4 with
          | none => none
          | some (d, l5) =>
            if 1 ≤ mo && mo ≤ 12 && 1 ≤ d && (d : Int) ≤ daysInMonth (y : Int) (mo : Int) then
              match parseTimePart l5 with
              | none => none
              | some (tod, off, aware) =>
                some (daysFromCivil (y : Int) (mo : Int) (d : Int) * 86400 + tod - off, aware)
            else none

/-- The composite `datetime.fromisoformat(ts.replace('Z', '+00:00'))` of
line 271-272. -/
def isoParse (s : String) : Option (Int × Bool) := parseISOChars (replZ s.data)

/-- The metadata dictionary assembled by FASE 4 (line 278-284). -/
structure Metadata where
  data_start : String
  data_end : String
  total_candles : Nat
  duration_days : Int
  generated_at : String

/-- Line 271-273: the `duration_days` computation on a nonempty candle
sequence `c :: rest`.  `none` models the uncaught `ValueError` of an
unparseable timestamp and the uncaught `TypeError` of subtracting a
naive datetime from an aware one (`timedelta.days` floors, hence
`Int.fdiv`). -/
def fase_4_core (c : Candle) (rest : List Candle) : Option Int :=
  match isoParse c.timestamp, isoParse (rest.getLastD c).timestamp with
  | some (a, wa), some (b, wb) =>
    if wa = wb then some (Int.fdiv (b - a) 86400) else none
  | _, _ => none

/-- Line 265-284: measure start/end/count/duration of a nonempty candle
sequence `c :: rest` and stamp the current time; an exception in the
duration computation aborts the item. -/
def fase_4_measure (c : Candle) (rest : List Candle) (now : String) : Except Unit Metadata :=
  match fase_4_core c rest with
  | some dur =>
    Except.ok
      { data_start := c.timestamp, data_end := (rest.getLastD c).timestamp,
        total_candles := (c :: rest).length,
        duration_days := dur, generated_at := now }
  | none => Except.error ()

/-- FASE 4 (line 241-293): abort (`sys.exit(1)`) on an empty candle
sequence, otherwise measure it. -/
def fase_4_metadata (candles : List Candle) (now : String) : Except Unit Metadata :=
  match candles with
  | [] => Except.error ()
  | c :: rest => fase_4_measure c rest now

/-- The output filename `f"{ticker}_{interval}_MERGED.json"` (line 336). -/
def outName (t i : String) : String := sanPre t i ++ "MERGED.json"

/-- The consolidated output record of FASE 5 (line 325-333), with the
metadata extended by the source-file count. -/
structure Artifact where
  ticker : String
  interval : String
  metadata : Metadata
  source_file_count : Nat
  candles : List Candle

/-- JSON rendering of a reconstructed candle. -/
def candleJVal (c : Candle) : JVal :=
  JVal.obj [("timestamp", JVal.str c.timestamp), ("open", c.open_), ("high", c.high),
    ("low", c.low), ("close", c.close), ("volume", c.volume)]

/-- JSON rendering of the extended metadata object. -/
def metadataJVal (md : Metadata) (sfc : Nat) : JVal :=
  JVal.obj [("data_start", JVal.str md.data_start), ("data_end", JVal.str md.data_end),
    ("total_candles", JVal.num md.total_candles), ("duration_days", JVal.num md.duration_days),
    ("generated_at", JVal.str md.generated_at), ("source_file_count", JVal.num sfc)]

/-- JSON rendering of the whole output artifact (line 325-333). -/
def artifactJVal (a : Artifact) : JVal :=
  JVal.obj [("ticker", JVal.str a.ticker), ("interval", JVal.str a.interval),
    ("metadata", metadataJVal a.metadata a.source_file_count),
    ("candles", JVal.arr (a.candles.map candleJVal))]

/-- Model of `open(path, 'w')` + `json.dump`: overwrite an existing file
of that name or create a new one. -/
def writeFile (fs : FS) (n : String) (c : Option JVal) : FS :=
  if n ∈ fs.map (·.1) then fs.map (fun p => if p.1 = n then (n, c) else p)
  else fs ++ [(n, c)]

/-- FASE 3-5 on the discovered (path, date) pairs: reconstruct, measure,
and assemble the output record of line 325-333 (`file_count` being
`len(file_date_pairs)`, line 416). -/
def pipeBuild (t i now : String) (fs1 : FS) (pairs : List (String × String)) :
    Except Unit Artifact :=
  match fase_4_metadata (fase_3_rekonstruksi fs1 pairs) now with
  | Except.error _ => Except.error ()
  | Except.ok md =>
    Except.ok
      { ticker := t, interval := i, metadata := md,
        source_file_count := pairs.length, candles := fase_3_rekonstruksi fs1 pairs }

/-- FASE 2-5 composed on an already-sanitized directory, producing the
output artifact or the item's failure. -/
def pipeArtifact (t i now : String) (fs1 : FS) : Except Unit Artifact :=
  match fase_2_discovery t i fs1 with
  | Except.error _ => Except.error ()
  | Except.ok pairs => pipeBuild t i now fs1 pairs

/-- The `main` driver (line 369-420) for one ticker+interval item:
sanitize, then run discovery through packaging; returns the directory
after the run and the item's outcome.  `now` is the wall-clock time
observed at line 276. -/
def runPipeline (t i now : String) (fs : FS) : FS × Except Unit Artifact :=
  match pipeArtifact t i now (fase_1_sanitasi t i fs) with
  | Except.error _ => (fase_1_sanitasi t i fs, Except.error ())
  | Except.ok a =>
    (writeFile (fase_1_sanitasi t i fs) (outName t i) (some (artifactJVal a)), Except.ok a)

/-- Outcome test for an item run. -/
def isOkB : Except Unit Artifact → Bool
  | Except.ok _ => true
  | Except.error _ => false

/-- Candle sequence of a successful run (empty for a failed one). -/
def okCandles : Except Unit Artifact → List Candle
  | Except.ok a => a.candles
  | Except.error _ => []

/-- Total-candle count of a successful run. -/
def okTotal : Except Unit Artifact → Option Nat
  | Except.ok a => some a.metadata.total_candles
  | Except.error _ => none

/-- Source-file count of a successful run. -/
def okSfc : Except Unit Artifact → Option Nat
  | Except.ok a => some a.source_file_count
  | Except.error _ => none

/-- The artifact with its `generated_at` field blanked, for comparing
two runs up to the generation timestamp. -/
def scrubGen (a : Artifact) : Artifact :=
  { a with metadata := { a.metadata with generated_at := "" } }

/-- Scrubbed artifact of a successful run. -/
def okScrub : Except Unit Artifact → Option Artifact
  | Except.ok a => some (scrubGen a)
  | Except.error _ => none

/-- The `generated_at` stamp of a successful run. -/
def okGen : Except Unit Artifact → Option String
  | Except.ok a => some a.metadata.generated_at
  | Except.error _ => none

/-- Non-decreasing-by-timestamp property of a candle sequence, comparing
timestamps in Python's string order: every earlier candle's timestamp is
less than or equal to every later one's. -/
def tsSorted (cs : List Candle) : Prop :=
  List.Pairwise (fun a b => strLeB a.timestamp b.timestamp = true) cs

instance (cs : List Candle) : Decidable (tsSorted cs) :=
  inferInstanceAs
    (Decidable (List.Pairwise (fun a b : Candle => strLeB a.timestamp b.timestamp = true) cs))

/-- A record that survives reconstruction: a JSON object with a truthy
resolved time value. -/
def recOk : JVal → Bool
  | JVal.obj o => truthy (resolveTime o)
  | _ => false

/-- A directory with one fragment file whose two records are NOT in
chronological order (09:35 before 09:31). -/
def fsUnsorted : FS :=
  [("ADRO_1m_2025-12-19.json", some (JVal.arr
    [JVal.obj [("time", JVal.str "09:35"), ("close", JVal.num 10)],
     JVal.obj [("time", JVal.str "09:31"), ("close", JVal.num 11)]]))]

/-- A directory with one well-formed fragment file whose two records are
in chronological order. -/
def fsSorted : FS :=
  [("ADRO_1m_2025-12-19.json", some (JVal.arr
    [JVal.obj [("time", JVal.str "09:31"), ("open", JVal.num 5), ("high", JVal.num 6),
       ("low", JVal.num 4), ("close", JVal.num 10), ("volume", JVal.num 100)],
     JVal.obj [("time", JVal.str "09:32"), ("open", JVal.num 5), ("high", JVal.num 7),
       ("low", JVal.num 5), ("close", JVal.num 11), ("volume", JVal.num 50)]]))]

/-- A directory containing only a stale derived artifact and no raw
fragment file. -/
def fsOnlyMerged : FS := [("ADRO_1m_MERGED.json", some (JVal.arr []))]

/-- An object whose `candles` key holds a falsy (empty) array while its
`data` key holds a nonempty record array. -/
def flFalsyCandles : List (String × JVal) :=
  [("candles", JVal.arr []),
   ("data", JVal.arr [JVal.obj [("time", JVal.str "09:31"), ("close", JVal.num 7)]])]

/-- A record with a truthy time whose only close-price alias `c` and only
open-price alias `o` are falsy-but-non-null (the number 0). -/
def recFalsyPrice : List (String × JVal) :=
  [("time", JVal.str "09:31"), ("o", JVal.num 0)]

/-- A record with a truthy time and no resolvable price under any alias:
`open` is absent and `o` holds JSON `null`. -/
def recNullPrice : List (String × JVal) :=
  [("time", JVal.str "09:31"), ("o", JVal.null)]

/-- A record exercising the alias-priority rules: `close` and `c` both
present, `open` present, `high` absent with `h` present, `low` absent. -/
def recAlias : List (String × JVal) :=
  [("time", JVal.str "09:31"), ("close", JVal.num 100), ("c", JVal.num 200),
   ("open", JVal.num 3), ("h", JVal.num 4)]

/-- A record holding only the abbreviated close alias `c`. -/
def recAliasOnlyC : List (String × JVal) :=
  [("time", JVal.str "09:31"), ("c", JVal.num 200)]

/-- The candle the Reconstructor emits for `recAlias`. -/
def recAliasCandle : Candle :=
  { timestamp := "2025-12-19T09:31:00Z", open_ := JVal.num 3, high := JVal.num 4,
    low := JVal.null, close := JVal.num 100, volume := JVal.num 0 }

/-- The candle the Reconstructor emits for `recAliasOnlyC`. -/
def recAliasOnlyCCandle : Candle :=
  { timestamp := "2025-12-19T09:31:00Z", open_ := JVal.null, high := JVal.null,
    low := JVal.null, close := JVal.num 200, volume := JVal.num 0 }

/-! Helper lemmas about the string and list primitives. -/

theorem dataAppend (a b : String) : (a ++ b).data = a.data ++ b.data := by
  cases a; cases b; rfl

theorem chPre_append_self : ∀ (a b : List Char), chPre a (a ++ b) = true
  | [], _ => rfl
  | c :: cs, b => by simp [chPre, chPre_append_self cs b]

theorem chPre_extend : ∀ (a b c : List Char), chPre a b = true → chPre a (b ++ c) = true
  | [], _, _, _ => rfl
  | _ :: _, [], _, h => by simp [chPre] at h
  | x :: xs, y :: ys, c, h => by
    simp only [chPre, Bool.and_eq_true, beq_iff_eq] at h ⊢
    exact ⟨h.1, chPre_extend xs ys c h.2⟩

theorem chPre_of_take : ∀ (pat : List Char) (n : Nat) (l : List Char),
    chPre pat (l.take n) = true → chPre pat l = true
  | [], _, _, _ => rfl
  | _ :: _, 0, _, h => by simp [chPre] at h
  | _ :: _, _ + 1, [], h => by simp [chPre] at h
  | p :: ps, n + 1, c :: t, h => by
    simp only [List.take_succ_cons, chPre, Bool.and_eq_true, beq_iff_eq] at h ⊢
    exact ⟨h.1, chPre_of_take ps n t h.2⟩

theorem hasSub_nilpat : ∀ (l : List Char), hasSub l [] = true
  | [] => rfl
  | _ :: _ => by simp [hasSub, chPre]

theorem hasSub_here : ∀ (l pat : List Char), chPre pat l = true → hasSub l pat = true
  | [], pat, h => by
    cases pat with
    | nil => rfl
    | cons p ps => simp [chPre] at h
  | _ :: _, _, h => by simp [hasSub, h]

theorem hasSub_cons (c : Char) (t pat : List Char) (h : hasSub t pat = true) :
    hasSub (c :: t) pat = true := by simp [hasSub, h]

theorem hasSub_append_left : ∀ (a b pat : List Char),
    hasSub b pat = true → hasSub (a ++ b) pat = true
  | [], _, _, h => h
  | c :: cs, b, pat, h => hasSub_cons c (cs ++ b) pat (hasSub_append_left cs b pat h)

theorem hasSub_take : ∀ (n : Nat) (l pat : List Char),
    hasSub (l.take n) pat = true → hasSub l pat = true
  | 0, [], _, h => h
  | _ + 1, [], _, h => h
  | 0, _ :: _, pat, h => by
    simp only [List.take_zero, hasSub, List.isEmpty_iff] at h
    subst h
    exact hasSub_nilpat _
  | n + 1, c :: t, pat, h => by
    simp only [List.take_succ_cons, hasSub, Bool.or_eq_true] at h
    rcases h with h1 | h2
    · exact hasSub_here _ _ (chPre_of_take pat (n + 1) (c :: t) h1)
    · exact hasSub_cons c t pat (hasSub_take n t pat h2)

theorem hasSub_drop : ∀ (n : Nat) (l pat : List Char),
    hasSub (l.drop n) pat = true → hasSub l pat = true
  | 0, _, _, h => h
  | _ + 1, [], _, h => h
  | n + 1, c :: t, pat, h => hasSub_cons c t pat (hasSub_drop n t pat h)

/-! Helper lemmas about the Sanitizer. -/

theorem outName_data (t i : String) :
    (outName t i).data = (sanPre t i).data ++ "MERGED.json".data := dataAppend _ _

theorem sanMatch_outName (t i : String) : sanMatch t i "MERGED" (outName t i) = true := by
  unfold sanMatch
  simp only [Bool.and_eq_true]
  refine ⟨⟨?_, ?_⟩, ?_⟩
  · unfold strStartsWith
    rw [outName_data]
    exact chPre_append_self _ _
  · unfold strEndsWith
    rw [outName_data, List.reverse_append]
    exact chPre_extend _ _ _ (by decide)
  · unfold middleOf
    rw [outName_data, List.drop_left]
    decide

theorem sanMatch_hasSub (t i tok n : String) (h : sanMatch t i tok n = true) :
    hasSub n.data tok.data = true := by
  unfold sanMatch at h
  simp only [Bool.and_eq_true] at h
  have h3 := h.2
  unfold middleOf at h3
  exact hasSub_drop _ _ _ (hasSub_take _ _ _ h3)

theorem outName_hasSub (t i : String) : hasSub (outName t i).data "MERGED".data = true := by
  rw [outName_data]
  exact hasSub_append_left _ _ _ (by decide)

theorem sanAny_outName (t i : String) : sanAny t i (outName t i) = true := by
  unfold sanAny sanTokens
  simp [sanMatch_outName]

theorem mem_fase_1 {t i : String} {fs : FS} {p : String × Option JVal} :
    p ∈ fase_1_sanitasi t i fs ↔ p ∈ fs ∧ sanAny t i p.1 = false := by
  unfold fase_1_sanitasi
  simp [List.mem_filter]

theorem outName_notMem_fase_1 (t i : String) (fs : FS) :
    outName t i ∉ (fase_1_sanitasi t i fs).map (·.1) := by
  intro hmem
  rcases List.mem_map.mp hmem with ⟨p, hp, hpe⟩
  have h2 := (mem_fase_1.mp hp).2
  rw [hpe, sanAny_outName] at h2
  exact Bool.true_eq_false.mp h2

theorem fase_1_idem (t i : String) (fs : FS) :
    fase_1_sanitasi t i (fase_1_sanitasi t i fs) = fase_1_sanitasi t i fs := by
  apply List.filter_eq_self.mpr
  intro p hp
  unfold fase_1_sanitasi at hp
  exact (List.mem_filter.mp hp).2

theorem fase_1_write (t i : String) (fs : FS) (v : Option JVal) :
    fase_1_sanitasi t i (writeFile (fase_1_sanitasi t i fs) (outName t i) v)
      = fase_1_sanitasi t i fs := by
  unfold writeFile
  rw [if_neg (outName_notMem_fase_1 t i fs)]
  have hidem := fase_1_idem t i fs
  unfold fase_1_sanitasi at hidem ⊢
  rw [List.filter_append, hidem]
  simp [sanAny_outName]

/-! Helper lemmas about the Discoverer. -/

theorem length_insertByDate (p : String × String) :
    ∀ l, (insertByDate p l).length = l.length + 1
  | [] => rfl
  | q :: qs => by
    unfold insertByDate
    split
    · simp
    · simp [length_insertByDate p qs]

theorem length_sortByDate : ∀ l, (sortByDate l).length = l.length
  | [] => rfl
  | p :: ps => by simp [sortByDate, length_insertByDate, length_sortByDate ps]

theorem mem_insertByDate (q p : String × String) :
    ∀ l, q ∈ insertByDate p l ↔ q = p ∨ q ∈ l
  | [] => by simp [insertByDate]
  | r :: rs => by
    unfold insertByDate
    split
    · simp [List.mem_cons]
    · simp only [List.mem_cons, mem_insertByDate q p rs]
      tauto

theorem mem_sortByDate (q : String × String) : ∀ l, q ∈ sortByDate l ↔ q ∈ l
  | [] => Iff.rfl
  | p :: ps => by simp [sortByDate, mem_insertByDate, mem_sortByDate q ps]

theorem fase_2_pairs_raw {t i : String} {fs : FS} {pairs : List (String × String)}
    (h : fase_2_discovery t i fs = Except.ok pairs) :
    ∀ pd ∈ pairs, rawName t i pd.1 = true := by
  simp only [fase_2_discovery] at h
  split at h
  · exact absurd h (by simp)
  · injection h with h
    subst h
    intro pd hpd
    rcases List.mem_filterMap.mp ((mem_sortByDate pd _).mp hpd) with ⟨n, hn, hmap⟩
    rcases Option.map_eq_some'.mp hmap with ⟨d, _, hpd2⟩
    have hraw := (List.mem_filter.mp hn).2
    rw [← hpd2]
    exact hraw

/-! Helper lemmas about the Reconstructor and the Metadata Measurer. -/

theorem processRecords_length (d : String) : ∀ recs : List JVal,
    (∀ r ∈ recs, recOk r = true) → (processRecords d recs).length = recs.length
  | [], _ => rfl
  | r :: rest, h => by
    have hr := h r (by simp)
    have hrest := processRecords_length d rest (fun x hx => h x (by simp [hx]))
    cases r with
    | obj o =>
      have ht : truthy (resolveTime o) = true := by simpa [recOk] using hr
      simp [processRecords, processRecord, ht, hrest]
    | null => simp [recOk] at hr
    | bool b => simp [recOk] at hr
    | num q => simp [recOk] at hr
    | str s => simp [recOk] at hr
    | arr l => simp [recOk] at hr

theorem fase_4_measure_total {c : Candle} {rest : List Candle} {now : String} {m : Metadata}
    (h : fase_4_measure c rest now = Except.ok m) : m.total_candles = (c :: rest).length := by
  unfold fase_4_measure at h
  cases h1 : fase_4_core c rest with
  | none => rw [h1] at h; simp at h
  | some dur =>
    rw [h1] at h
    injection h with h
    rw [← h]

theorem fase_4_total {cs : List Candle} {now : String} {m : Metadata}
    (h : fase_4_metadata cs now = Except.ok m) : m.total_candles = cs.length := by
  cases cs with
  | nil => exact absurd h (by simp [fase_4_metadata])
  | cons c rest => exact fase_4_measure_total h

theorem fase_4_measure_now {c : Candle} {rest : List Candle} {n1 n2 : String} {m : Metadata}
    (h : fase_4_measure c rest n1 = Except.ok m) :
    fase_4_measure c rest n2 = Except.ok { m with generated_at := n2 } := by
  unfold fase_4_measure at h ⊢
  cases h1 : fase_4_core c rest with
  | none => rw [h1] at h; simp at h
  | some dur =>
    rw [h1] at h
    injection h with h
    rw [← h]

theorem fase_4_now {cs : List Candle} {n1 n2 : String} {m : Metadata}
    (h : fase_4_metadata cs n1 = Except.ok m) :
    fase_4_metadata cs n2 = Except.ok { m with generated_at := n2 } := by
  cases cs with
  | nil => exact absurd h (by simp [fase_4_metadata])
  | cons c rest =>
    show fase_4_measure c rest n2 = _
    exact fase_4_measure_now h

theorem pipeBuild_now {t i n1 n2 : String} {fs1 : FS} {pairs : List (String × String)}
    {a : Artifact} (h : pipeBuild t i n1 fs1 pairs = Except.ok a) :
    pipeBuild t i n2 fs1 pairs
      = Except.ok { a with metadata := { a.metadata with generated_at := n2 } } := by
  unfold pipeBuild at h ⊢
  cases h4 : fase_4_metadata (fase_3_rekonstruksi fs1 pairs) n1 with
  | error e => rw [h4] at h; exact absurd h (by simp)
  | ok md =>
    rw [h4] at h
    injection h with h
    rw [(fase_4_now h4 : fase_4_metadata _ n2 = _), ← h]

theorem pipeArtifact_now {t i n1 n2 : String} {fs1 : FS} {a : Artifact}
    (h : pipeArtifact t i n1 fs1 = Except.ok a) :
    pipeArtifact t i n2 fs1
      = Except.ok { a with metadata := { a.metadata with generated_at := n2 } } := by
  unfold pipeArtifact at h ⊢
  cases h2 : fase_2_discovery t i fs1 with
  | error e => rw [h2] at h; exact absurd h (by simp)
  | ok pairs =>
    rw [h2] at h
    show pipeBuild t i n2 fs1 pairs = _
    exact pipeBuild_now h

theorem runPipeline_ok {t i now : String} {fs : FS}
    (h : isOkB (runPipeline t i now fs).2 = true) :
    ∃ a, pipeArtifact t i now (fase_1_sanitasi t i fs) = Except.ok a ∧
      runPipeline t i now fs
        = (writeFile (fase_1_sanitasi t i fs) (outName t i) (some (artifactJVal a)),
           Except.ok a) := by
  unfold runPipeline at h ⊢
  cases hpa : pipeArtifact t i now (fase_1_sanitasi t i fs) with
  | error e => rw [hpa] at h; exact Bool.noConfusion h
  | ok a => exact ⟨a, rfl, rfl⟩

theorem runPipeline_ok_of_pipe {t i now : String} {fs : FS} {a : Artifact}
    (hpa : pipeArtifact t i now (fase_1_sanitasi t i fs) = Except.ok a) :
    runPipeline t i now fs
      = (writeFile (fase_1_sanitasi t i fs) (outName t i) (some (artifactJVal a)),
         Except.ok a) := by
  unfold runPipeline
  rw [hpa]

/-! Claim theorems. -/

/-- C1: inside a file dated 2025-12-19, a record whose resolved time
value is the clock-time string "09:31" reconstructs to timestamp
"2025-12-19T09:31:00Z"; one resolving to "09:31:45" reconstructs to
"2025-12-19T09:31:45Z"; and a resolved time value that is a string
containing the separator character T is passed through verbatim. -/
theorem c1_timestamp_reconstruction (r : List (String × JVal)) :
    (resolveTime r = JVal.str "09:31" →
      (processRecord "2025-12-19" r).map Candle.timestamp = some "2025-12-19T09:31:00Z")
    ∧ (resolveTime r = JVal.str "09:31:45" →
      (processRecord "2025-12-19" r).map Candle.timestamp = some "2025-12-19T09:31:45Z")
    ∧ (∀ s : String, resolveTime r = JVal.str s → hasSub s.data "T".data = true →
      (processRecord "2025-12-19" r).map Candle.timestamp = some s) := by
  refine ⟨?_, ?_, ?_⟩
  · intro h
    unfold processRecord
    rw [h, if_pos (by decide)]
    rfl
  · intro h
    unfold processRecord
    rw [h, if_pos (by decide)]
    rfl
  · intro s h hT
    have hne : s.data ≠ [] := by
      intro he
      rw [he] at hT
      exact Bool.noConfusion hT
    have htr : truthy (JVal.str s) = true := by
      show (!s.data.isEmpty) = true
      cases hd : s.data with
      | nil => exact absurd hd hne
      | cons c cs => rfl
    unfold processRecord
    rw [h, if_pos htr]
    show some (if hasSub s.data "T".data = true then s else clockCombine "2025-12-19" s)
      = some s
    rw [if_pos hT]

/-- C1 witness: the three reconstruction cases at concrete records. -/
theorem c1_timestamp_reconstruction_witness :
    (processRecord "2025-12-19" [("time", JVal.str "09:31")]).map Candle.timestamp
      = some "2025-12-19T09:31:00Z"
    ∧ (processRecord "2025-12-19" [("t", JVal.str "09:31:45")]).map Candle.timestamp
      = some "2025-12-19T09:31:45Z"
    ∧ (processRecord "2025-12-19"
        [("time", JVal.str "2025-12-19T09:31:00+07:00")]).map Candle.timestamp
      = some "2025-12-19T09:31:00+07:00" :=
  ⟨(c1_timestamp_reconstruction _).1 rfl,
   (c1_timestamp_reconstruction _).2.1 rfl,
   (c1_timestamp_reconstruction _).2.2 _ rfl (by decide)⟩

/-- C3 counterexample: in an object whose `candles` key holds a falsy
value (the empty array) while `data` holds a nonempty array, the
Reconstructor takes the value under `data`, not the value under the
present key `candles` — refuting "first key PRESENT wins". -/
theorem c3_container_priority_cex :
    objGet flFalsyCandles "candles" = JVal.arr []
    ∧ locateCandles (JVal.obj flFalsyCandles) = objGet flFalsyCandles "data"
    ∧ locateCandles (JVal.obj flFalsyCandles) ≠ objGet flFalsyCandles "candles" := by
  refine ⟨rfl, rfl, ?_⟩
  intro h
  rw [show locateCandles (JVal.obj flFalsyCandles)
      = JVal.arr [JVal.obj [("time", JVal.str "09:31"), ("close", JVal.num 7)]] from rfl,
    show objGet flFalsyCandles "candles" = JVal.arr [] from rfl] at h
  simp at h

/-- C3 (amended): the container keys `candles`, `data`, `klines` are
tried in that fixed order and the first key whose VALUE is truthy wins;
a present key holding a falsy value falls through to the next key. -/
theorem c3_container_priority (fl : List (String × JVal)) :
    (truthy (objGet fl "candles") = true →
      locateCandles (JVal.obj fl) = objGet fl "candles")
    ∧ (truthy (objGet fl "candles") = false → truthy (objGet fl "data") = true →
      locateCandles (JVal.obj fl) = objGet fl "data")
    ∧ (truthy (objGet fl "candles") = false → truthy (objGet fl "data") = false →
      locateCandles (JVal.obj fl) = objGet fl "klines") := by
  refine ⟨?_, ?_, ?_⟩
  · intro h1
    show pyOr (objGet fl "candles") (pyOr (objGet fl "data") (objGet fl "klines")) = _
    unfold pyOr
    rw [if_pos h1]
  · intro h1 h2
    show pyOr (objGet fl "candles") (pyOr (objGet fl "data") (objGet fl "klines")) = _
    unfold pyOr
    rw [if_neg (by rw [h1]; exact Bool.noConfusion), if_pos h2]
  · intro h1 h2
    show pyOr (objGet fl "candles") (pyOr (objGet fl "data") (objGet fl "klines")) = _
    unfold pyOr
    rw [if_neg (by rw [h1]; exact Bool.noConfusion),
      if_neg (by rw [h2]; exact Bool.noConfusion)]

/-- C3 witness: with `candles` falsy and `data` truthy, the value under
`data` is located. -/
theorem c3_container_priority_witness :
    locateCandles (JVal.obj flFalsyCandles) = objGet flFalsyCandles "data" :=
  (c3_container_priority flFalsyCandles).2.1 (by decide) (by decide)

/-- C4: for an emitted candle, a long-form OHLC field name wins over the
single-letter abbreviation: with both close 100 and c 200 the close is
100, with only c 200 it is 200, and for each of open/high/low/close a
truthy long-form value is taken, the abbreviation being consulted only
when the long form is falsy. -/
theorem c4_alias_priority (d : String) (r : List (String × JVal)) (c : Candle)
    (h : processRecord d r = some c) :
    (objGet r "close" = JVal.num 100 → objGet r "c" = JVal.num 200 → c.close = JVal.num 100)
    ∧ (objGet r "close" = JVal.null → objGet r "c" = JVal.num 200 → c.close = JVal.num 200)
    ∧ (truthy (objGet r "open") = true → c.open_ = objGet r "open")
    ∧ (truthy (objGet r "open") = false → c.open_ = objGet r "o")
    ∧ (truthy (objGet r "high") = true → c.high = objGet r "high")
    ∧ (truthy (objGet r "high") = false → c.high = objGet r "h")
    ∧ (truthy (objGet r "low") = true → c.low = objGet r "low")
    ∧ (truthy (objGet r "low") = false → c.low = objGet r "l")
    ∧ (truthy (objGet r "close") = true → c.close = objGet r "close")
    ∧ (truthy (objGet r "close") = false → c.close = objGet r "c") := by
  unfold processRecord at h
  by_cases ht : truthy (resolveTime r) = true
  · rw [if_pos ht] at h
    injection h with h
    subst h
    refine ⟨?_, ?_, ?_, ?_, ?_, ?_, ?_, ?_, ?_, ?_⟩
    · intro h1 h2
      show pyOr (objGet r "close") (objGet r "c") = _
      rw [h1, h2]
      unfold pyOr
      rw [if_pos (by decide)]
    · intro h1 h2
      show pyOr (objGet r "close") (objGet r "c") = _
      rw [h1, h2]
      unfold pyOr
      rw [if_neg (by decide)]
    · intro h1
      show pyOr (objGet r "open") (objGet r "o") = _
      unfold pyOr
      rw [if_pos h1]
    · intro h1
      show pyOr (objGet r "open") (objGet r "o") = _
      unfold pyOr
      rw [if_neg (by rw [h1]; exact Bool.noConfusion)]
    · intro h1
      show pyOr (objGet r "high") (objGet r "h") = _
      unfold pyOr
      rw [if_pos h1]
    · intro h1
      show pyOr (objGet r "high") (objGet r "h") = _
      unfold pyOr
      rw [if_neg (by rw [h1]; exact Bool.noConfusion)]
    · intro h1
      show pyOr (objGet r "low") (objGet r "l") = _
      unfold pyOr
      rw [if_pos h1]
    · intro h1
      show pyOr (objGet r "low") (objGet r "l") = _
      unfold pyOr
      rw [if_neg (by rw [h1]; exact Bool.noConfusion)]
    · intro h1
      show pyOr (objGet r "close") (objGet r "c") = _
      unfold pyOr
      rw [if_pos h1]
    · intro h1
      show pyOr (objGet r "close") (objGet r "c") = _
      unfold pyOr
      rw [if_neg (by rw [h1]; exact Bool.noConfusion)]
  · rw [if_neg ht] at h
    exact absurd h (by simp)

/-- C4 witness: the alias rules at two concrete records. -/
theorem c4_alias_priority_witness :
    processRecord "2025-12-19" recAlias = some recAliasCandle
    ∧ recAliasCandle.close = JVal.num 100
    ∧ processRecord "2025-12-19" recAliasOnlyC = some recAliasOnlyCCandle
    ∧ recAliasOnlyCCandle.close = JVal.num 200 :=
  ⟨rfl,
   (c4_alias_priority "2025-12-19" recAlias recAliasCandle rfl).1 rfl rfl,
   rfl,
   (c4_alias_priority "2025-12-19" recAliasOnlyC recAliasOnlyCCandle rfl).2.1 rfl rfl⟩

/-- C9 counterexample: a record whose open-price aliases are all falsy
but where the abbreviation `o` holds the non-null value 0 is emitted
with open 0, not with open null — refuting "the unresolvable price field
is set to null" for falsy-but-non-null alias values. -/
theorem c9_emit_unresolvable_cex :
    (processRecord "2025-12-19" recFalsyPrice).map Candle.open_ = some (JVal.num 0)
    ∧ JVal.num 0 ≠ JVal.null :=
  ⟨rfl, fun h => JVal.noConfusion h⟩

/-- C9 (amended): a record with a truthy resolved time value is always
emitted as a candle (never dropped, no error); when a price field's
aliases are absent or null the emitted field is null, while a
falsy-but-non-null alias value (such as 0) is emitted as that value. -/
theorem c9_emit_unresolvable (d : String) (r : List (String × JVal))
    (ht : truthy (resolveTime r) = true) :
    (processRecord d r).isSome = true
    ∧ (objGet r "open" = JVal.null → objGet r "o" = JVal.null →
        (processRecord d r).map Candle.open_ = some JVal.null)
    ∧ (objGet r "high" = JVal.null → objGet r "h" = JVal.null →
        (processRecord d r).map Candle.high = some JVal.null)
    ∧ (objGet r "low" = JVal.null → objGet r "l" = JVal.null →
        (processRecord d r).map Candle.low = some JVal.null)
    ∧ (objGet r "close" = JVal.null → objGet r "c" = JVal.null →
        (processRecord d r).map Candle.close = some JVal.null) := by
  unfold processRecord
  rw [if_pos ht]
  refine ⟨rfl, ?_, ?_, ?_, ?_⟩
  · intro h1 h2
    show some (pyOr (objGet r "open") (objGet r "o")) = _
    rw [h1, h2]
    rfl
  · intro h1 h2
    show some (pyOr (objGet r "high") (objGet r "h")) = _
    rw [h1, h2]
    rfl
  · intro h1 h2
    show some (pyOr (objGet r "low") (objGet r "l")) = _
    rw [h1, h2]
    rfl
  · intro h1 h2
    show some (pyOr (objGet r "close") (objGet r "c")) = _
    rw [h1, h2]
    rfl

/-- C9 witness: a record whose price aliases are absent or null is
emitted with null prices. -/
theorem c9_emit_unresolvable_witness :
    (processRecord "2025-12-19" recNullPrice).isSome = true
    ∧ (processRecord "2025-12-19" recNullPrice).map Candle.open_ = some JVal.null :=
  ⟨(c9_emit_unresolvable "2025-12-19" recNullPrice (by decide)).1,
   (c9_emit_unresolvable "2025-12-19" recNullPrice (by decide)).2.1 rfl rfl⟩

/-- C7: given the raw fragment `ADRO_1m_2025-12-19.json` and the derived
file `ADRO_1m_MERGED.json`, sanitizing for ticker ADRO interval 1m
deletes only the second file; and in general the Sanitizer never deletes
a file whose name contains none of the marker substrings MERGED,
COMBINED, days. -/
theorem c7_sanitizer_precision (x y : Option JVal) :
    fase_1_sanitasi "ADRO" "1m"
        [("ADRO_1m_2025-12-19.json", x), ("ADRO_1m_MERGED.json", y)]
      = [("ADRO_1m_2025-12-19.json", x)]
    ∧ (∀ (t i : String) (fs : FS) (p : String × Option JVal), p ∈ fs →
        (∀ tok ∈ sanTokens, hasSub p.1.data tok.data = false) →
        p ∈ fase_1_sanitasi t i fs) := by
  constructor
  · have h1 : sanAny "ADRO" "1m" "ADRO_1m_2025-12-19.json" = false := by decide
    have h2 : sanAny "ADRO" "1m" "ADRO_1m_MERGED.json" = true := by decide
    simp [fase_1_sanitasi, List.filter_cons, h1, h2]
  · intro t i fs p hp htok
    refine mem_fase_1.mpr ⟨hp, ?_⟩
    unfold sanAny
    simp only [List.any_eq_false]
    intro tok htokmem hs
    have hsub2 := sanMatch_hasSub t i tok p.1 hs
    rw [htok tok htokmem] at hsub2
    exact Bool.noConfusion hsub2

/-- C7 witness: the sanitizer scenario at concrete files. -/
theorem c7_sanitizer_precision_witness :
    fase_1_sanitasi "ADRO" "1m"
        [("ADRO_1m_2025-12-19.json", none), ("ADRO_1m_MERGED.json", none)]
      = [("ADRO_1m_2025-12-19.json", none)]
    ∧ ("ADRO_1m_2025-12-19.json", (none : Option JVal)) ∈
        fase_1_sanitasi "ADRO" "1m" [("ADRO_1m_2025-12-19.json", (none : Option JVal))] :=
  ⟨(c7_sanitizer_precision none none).1,
   (c7_sanitizer_precision none none).2 "ADRO" "1m" _ _ (List.mem_cons_self _ _)
     (by decide)⟩

/-- C10: the output filename contains the marker MERGED, matches the
Sanitizer's MERGED deletion pattern, and is excluded from discovery: no
(path, date) pair returned by the Discoverer, for any ticker, interval
and directory, can name a merged artifact, so the pipeline never
consumes its own output. -/
theorem c10_no_self_consumption (t i : String) :
    hasSub (outName t i).data "MERGED".data = true
    ∧ sanMatch t i "MERGED" (outName t i) = true
    ∧ (∀ (t2 i2 : String) (fs : FS) (pairs : List (String × String)),
        fase_2_discovery t2 i2 fs = Except.ok pairs →
        ∀ pd ∈ pairs, pd.1 ≠ outName t i) := by
  refine ⟨outName_hasSub t i, sanMatch_outName t i, ?_⟩
  intro t2 i2 fs pairs h pd hpd heq
  have hraw := fase_2_pairs_raw h pd hpd
  unfold rawName at hraw
  simp only [Bool.and_eq_true] at hraw
  have hno := hraw.2
  rw [heq] at hno
  have hany : sanTokens.any (fun kw => hasSub (outName t i).data kw.data) = true := by
    unfold sanTokens
    simp [outName_hasSub t i]
  rw [hany] at hno
  exact Bool.noConfusion hno

/-- C10 witness: at ticker ADRO interval 1m, with a concrete directory. -/
theorem c10_no_self_consumption_witness :
    hasSub (outName "ADRO" "1m").data "MERGED".data = true
    ∧ sanMatch "ADRO" "1m" "MERGED" (outName "ADRO" "1m") = true
    ∧ ("ADRO_1m_2025-12-19.json", "2025-12-19").1 ≠ outName "ADRO" "1m" :=
  ⟨(c10_no_self_consumption "ADRO" "1m").1,
   (c10_no_self_consumption "ADRO" "1m").2.1,
   (c10_no_self_consumption "ADRO" "1m").2.2 "ADRO" "1m" fsSorted
     [("ADRO_1m_2025-12-19.json", "2025-12-19")] rfl
     ("ADRO_1m_2025-12-19.json", "2025-12-19") (by decide)⟩

/-- C6 counterexample: on a directory holding only a stale merged
artifact, the run does exit with an error, but the Sanitizer has deleted
the stale artifact first, so the directory contents after the run differ
from the contents before it — refuting "the directory's file contents
are the same after the run as before it". -/
theorem c6_fatal_empty_cex :
    rawNames "ADRO" "1m" fsOnlyMerged = []
    ∧ (runPipeline "ADRO" "1m" "2025-12-20T00:00:00Z" fsOnlyMerged).2 = Except.error ()
    ∧ (runPipeline "ADRO" "1m" "2025-12-20T00:00:00Z" fsOnlyMerged).1 ≠ fsOnlyMerged := by
  refine ⟨rfl, rfl, ?_⟩
  intro h
  exact List.cons_ne_nil _ _ h.symm

/-- C6 (amended): a directory with zero raw fragment files makes the run
terminate with an error and no output artifact is created or
overwritten: the resulting directory is exactly the Sanitizer's output,
a sublist of the original directory (the only possible change being the
deletion of stale derived artifacts). -/
theorem c6_fatal_empty (t i now : String) (fs : FS) (h : rawNames t i fs = []) :
    (runPipeline t i now fs).2 = Except.error ()
    ∧ (runPipeline t i now fs).1 = fase_1_sanitasi t i fs
    ∧ List.Sublist (runPipeline t i now fs).1 fs := by
  have hsub : List.Sublist (fase_1_sanitasi t i fs) fs := List.filter_sublist _
  have h1 : rawNames t i (fase_1_sanitasi t i fs) = [] := by
    have hs2 : List.Sublist (rawNames t i (fase_1_sanitasi t i fs)) (rawNames t i fs) :=
      List.Sublist.filter _ (List.Sublist.map _ hsub)
    rw [h] at hs2
    exact List.sublist_nil.mp hs2
  have h2 : fase_2_discovery t i (fase_1_sanitasi t i fs) = Except.error () := by
    unfold fase_2_discovery
    rw [h1]
    rfl
  have hrun : runPipeline t i now fs = (fase_1_sanitasi t i fs, Except.error ()) := by
    unfold runPipeline pipeArtifact
    rw [h2]
  rw [hrun]
  exact ⟨rfl, rfl, hsub⟩

/-- C6 witness: the fatal-empty guard at a concrete directory. -/
theorem c6_fatal_empty_witness :
    (runPipeline "ADRO" "1m" "g" fsOnlyMerged).2 = Except.error ()
    ∧ (runPipeline "ADRO" "1m" "g" fsOnlyMerged).1 = fase_1_sanitasi "ADRO" "1m" fsOnlyMerged
    ∧ List.Sublist (runPipeline "ADRO" "1m" "g" fsOnlyMerged).1 fsOnlyMerged :=
  c6_fatal_empty "ADRO" "1m" "g" fsOnlyMerged rfl

/-- C2 counterexample: a successful run on a fragment file whose records
are not in chronological order produces a merged artifact whose candle
sequence is NOT non-decreasing by timestamp — refuting the invariant for
arbitrary well-formed inputs. -/
theorem c2_not_sorted_cex :
    isOkB (runPipeline "ADRO" "1m" "2025-12-20T00:00:00Z" fsUnsorted).2 = true
    ∧ ¬ tsSorted (okCandles (runPipeline "ADRO" "1m" "2025-12-20T00:00:00Z" fsUnsorted).2) :=
  ⟨rfl, by decide⟩

/-- C2 (amended): the pipeline concatenates candles in discovery order
without re-sorting; the merged artifact is non-decreasing by timestamp
provided each discovered file's candles are internally non-decreasing
and every candle of an earlier file is bounded by every candle of a
later file — out-of-order intra-file records propagate uncorrected. -/
theorem c2_order_preservation (t i now : String) (fs : FS)
    (pairs : List (String × String))
    (h2 : fase_2_discovery t i (fase_1_sanitasi t i fs) = Except.ok pairs)
    (hin : ∀ pd ∈ pairs, tsSorted (fileCandles (fase_1_sanitasi t i fs) pd))
    (hacross : List.Pairwise (fun p q =>
        ∀ a ∈ fileCandles (fase_1_sanitasi t i fs) p,
        ∀ b ∈ fileCandles (fase_1_sanitasi t i fs) q,
        strLeB a.timestamp b.timestamp = true) pairs) :
    tsSorted (okCandles (runPipeline t i now fs).2) := by
  have hsorted : tsSorted (fase_3_rekonstruksi (fase_1_sanitasi t i fs) pairs) := by
    unfold fase_3_rekonstruksi tsSorted
    rw [List.pairwise_flatten]
    constructor
    · intro l hl
      rcases List.mem_map.mp hl with ⟨pd, hpd, hle⟩
      rw [← hle]
      exact hin pd hpd
    · rw [List.pairwise_map]
      exact hacross
  unfold runPipeline pipeArtifact
  rw [h2]
  show tsSorted (okCandles
    (match pipeBuild t i now (fase_1_sanitasi t i fs) pairs with
     | Except.error _ => (fase_1_sanitasi t i fs, Except.error ())
     | Except.ok a =>
       (writeFile (fase_1_sanitasi t i fs) (outName t i) (some (artifactJVal a)),
        Except.ok a)).2)
  cases hb : pipeBuild t i now (fase_1_sanitasi t i fs) pairs with
  | error e => exact List.Pairwise.nil
  | ok a =>
    unfold pipeBuild at hb
    cases h4 : fase_4_metadata (fase_3_rekonstruksi (fase_1_sanitasi t i fs) pairs) now with
    | error e => rw [h4] at hb; exact absurd hb (by simp)
    | ok md =>
      rw [h4] at hb
      injection hb with hb
      show tsSorted a.candles
      rw [← hb]
      exact hsorted

/-- C2 witness: the amended ordering property at a concrete
chronologically ordered directory. -/
theorem c2_order_preservation_witness :
    tsSorted (okCandles (runPipeline "ADRO" "1m" "2025-12-20T00:00:00Z" fsSorted).2) :=
  c2_order_preservation "ADRO" "1m" "2025-12-20T00:00:00Z" fsSorted
    [("ADRO_1m_2025-12-19.json", "2025-12-19")] rfl
    (by intro pd hpd; simp only [List.mem_singleton] at hpd; subst hpd; decide)
    (by simp)

theorem sum_len_const {fs1 : FS} {K : Nat} :
    ∀ (pairs : List (String × String)),
      (∀ pd ∈ pairs, (fileCandles fs1 pd).length = K) →
      (fase_3_rekonstruksi fs1 pairs).length = pairs.length * K
  | [], _ => by simp [fase_3_rekonstruksi]
  | pd :: ps, h => by
    have h1 := h pd (by simp)
    have h2 := sum_len_const ps (fun q hq => h q (by simp [hq]))
    unfold fase_3_rekonstruksi at h2 ⊢
    simp only [List.map_cons, List.flatten_cons, List.length_append, List.length_cons, h1, h2]
    ring

/-- C5: when discovery finds exactly N datable raw fragment files and
every discovered file parses to a located record array of exactly K
reconstructible records, a successful run's artifact reports
total_candles = N*K and source_file_count = N. -/
theorem c5_completeness (t i now : String) (fs : FS) (N K : Nat)
    (pairs : List (String × String))
    (h2 : fase_2_discovery t i (fase_1_sanitasi t i fs) = Except.ok pairs)
    (hN : pairs.length = N)
    (hK : ∀ pd ∈ pairs, ∃ data recs,
        lookupContent (fase_1_sanitasi t i fs) pd.1 = some (some data)
        ∧ locateCandles data = JVal.arr recs ∧ recs.length = K
        ∧ (∀ r ∈ recs, recOk r = true))
    (hOk : isOkB (runPipeline t i now fs).2 = true) :
    okTotal (runPipeline t i now fs).2 = some (N * K)
    ∧ okSfc (runPipeline t i now fs).2 = some N := by
  have hfile : ∀ pd ∈ pairs, (fileCandles (fase_1_sanitasi t i fs) pd).length = K := by
    intro pd hpd
    rcases hK pd hpd with ⟨data, recs, hl, hc, hlen, hrec⟩
    unfold fileCandles
    rw [hl]
    show (processContent pd.2 data).length = K
    unfold processContent
    rw [hc]
    cases recs with
    | nil =>
      rw [if_neg (by decide)]
      simpa using hlen
    | cons r rest =>
      rw [if_pos (show truthy (JVal.arr (r :: rest)) = true from rfl)]
      rw [← hlen]
      exact processRecords_length pd.2 (r :: rest) hrec
  have h3len : (fase_3_rekonstruksi (fase_1_sanitasi t i fs) pairs).length = N * K := by
    rw [← hN]
    exact sum_len_const pairs hfile
  rcases runPipeline_ok hOk with ⟨a, hpa, hrun⟩
  unfold pipeArtifact at hpa
  rw [h2] at hpa
  replace hpa : pipeBuild t i now (fase_1_sanitasi t i fs) pairs = Except.ok a := hpa
  unfold pipeBuild at hpa
  cases h4 : fase_4_metadata (fase_3_rekonstruksi (fase_1_sanitasi t i fs) pairs) now with
  | error e => rw [h4] at hpa; exact absurd hpa (by simp)
  | ok md =>
    rw [h4] at hpa
    injection hpa with hpa
    have htot := fase_4_total h4
    rw [hrun]
    constructor
    · show some a.metadata.total_candles = some (N * K)
      rw [← hpa]
      show some md.total_candles = _
      rw [htot, h3len]
    · show some a.source_file_count = some N
      rw [← hpa]
      show some pairs.length = _
      rw [hN]

/-- C5 witness: one raw file of two well-formed records yields
total_candles = 1*2 and source_file_count = 1. -/
theorem c5_completeness_witness :
    okTotal (runPipeline "ADRO" "1m" "2025-12-20T00:00:00Z" fsSorted).2 = some (1 * 2)
    ∧ okSfc (runPipeline "ADRO" "1m" "2025-12-20T00:00:00Z" fsSorted).2 = some 1 :=
  c5_completeness "ADRO" "1m" "2025-12-20T00:00:00Z" fsSorted 1 2
    [("ADRO_1m_2025-12-19.json", "2025-12-19")] rfl rfl
    (by
      intro pd hpd
      simp only [List.mem_singleton] at hpd
      subst hpd
      exact ⟨JVal.arr
          [JVal.obj [("time", JVal.str "09:31"), ("open", JVal.num 5), ("high", JVal.num 6),
             ("low", JVal.num 4), ("close", JVal.num 10), ("volume", JVal.num 100)],
           JVal.obj [("time", JVal.str "09:32"), ("open", JVal.num 5), ("high", JVal.num 7),
             ("low", JVal.num 5), ("close", JVal.num 11), ("volume", JVal.num 50)]],
        [JVal.obj [("time", JVal.str "09:31"), ("open", JVal.num 5), ("high", JVal.num 6),
             ("low", JVal.num 4), ("close", JVal.num 10), ("volume", JVal.num 100)],
           JVal.obj [("time", JVal.str "09:32"), ("open", JVal.num 5), ("high", JVal.num 7),
             ("low", JVal.num 5), ("close", JVal.num 11), ("volume", JVal.num 50)]],
        rfl, rfl, rfl, by decide⟩)
    rfl

/-- C8: if the first run of the pipeline succeeds, running it again on
the resulting directory with the same ticker and interval succeeds and
produces an artifact identical to the first (same ticker, interval,
candles and metadata) except for generated_at, which carries the second
run's wall-clock time. -/
theorem c8_idempotence (t i n1 n2 : String) (fs : FS)
    (h : isOkB (runPipeline t i n1 fs).2 = true) :
    isOkB (runPipeline t i n2 (runPipeline t i n1 fs).1).2 = true
    ∧ okScrub (runPipeline t i n2 (runPipeline t i n1 fs).1).2
        = okScrub (runPipeline t i n1 fs).2
    ∧ okGen (runPipeline t i n2 (runPipeline t i n1 fs).1).2 = some n2 := by
  rcases runPipeline_ok h with ⟨a1, hpa, hrun⟩
  have hfs : fase_1_sanitasi t i (runPipeline t i n1 fs).1 = fase_1_sanitasi t i fs := by
    rw [hrun]
    exact fase_1_write t i fs _
  have hpa2 : pipeArtifact t i n2 (fase_1_sanitasi t i (runPipeline t i n1 fs).1)
      = Except.ok { a1 with metadata := { a1.metadata with generated_at := n2 } } := by
    rw [hfs]
    exact pipeArtifact_now hpa
  have hrun2 := runPipeline_ok_of_pipe hpa2
  rw [hrun2, hrun]
  exact ⟨rfl, rfl, rfl⟩

/-- C8 witness: two successive runs on a concrete directory. -/
theorem c8_idempotence_witness :
    isOkB (runPipeline "ADRO" "1m" "2025-12-21T00:00:00Z"
        (runPipeline "ADRO" "1m" "2025-12-20T00:00:00Z" fsSorted).1).2 = true
    ∧ okScrub (runPipeline "ADRO" "1m" "2025-12-21T00:00:00Z"
        (runPipeline "ADRO" "1m" "2025-12-20T00:00:00Z" fsSorted).1).2
        = okScrub (runPipeline "ADRO" "1m" "2025-12-20T00:00:00Z" fsSorted).2
    ∧ okGen (runPipeline "ADRO" "1m" "2025-12-21T00:00:00Z"
        (runPipeline "ADRO" "1m" "2025-12-20T00:00:00Z" fsSorted).1).2
        = some "2025-12-21T00:00:00Z" :=
  c8_idempotence "ADRO" "1m" "2025-12-20T00:00:00Z" "2025-12-21T00:00:00Z" fsSorted rfl

end MergeStockData
